import Mathlib

/-!
Verification of the tracking-aggregation pipeline of the AI-vision-analytics
repository (src/video_processor.py, src/report_generator.py,
src/generate_ai_summary.py).

The embedding models the structured detection records the external engine
emits and the aggregation state `analytics` built by `analyze_video` and
`analyze_image`.  Confidences (python floats combined only by addition and
true division here) are modelled as rationals; python `int` counters as
naturals; `defaultdict` maps as total functions whose value at an untouched
key is the default, matching "missing key reads as zero".
-/

/-- One detection record, as read off a `box` in `analyze_video`:
`cls` is `model.names[int(box.cls[0])]`, `id` is `int(box.id[0])` when
`box.id` is not `None` (else `none`), `conf` is `float(box.conf[0])`. -/
structure Detection where
  cls : String
  id : Option Int
  conf : Rat
deriving DecidableEq, Repr

/-- One frame's result, as consumed by the loop in `analyze_video`:
`hasIds` models the frame-level guard `results[0].boxes.id is not None`
(line 50), `dets` the list of boxes iterated on line 51. -/
structure Frame where
  hasIds : Bool
  dets : List Detection
deriving DecidableEq, Repr

/-- The `analytics` dictionary of `video_processor.py` (lines 34-40 and
91-96): `total_frames`, `unique_ids` (defaultdict(set)), `class_count`
(defaultdict(int)), `confidence_sum` (defaultdict(float)),
`confidence_count` (defaultdict(int)). -/
@[ext]
structure AnalyticsState where
  total_frames : Nat
  unique_ids : String → Finset Int
  class_count : String → Nat
  confidence_sum : String → Rat
  confidence_count : String → Nat

/-- The freshly initialised `analytics` dictionary: every map reads as
empty/zero before any mutation. -/
def initState : AnalyticsState :=
  { total_frames := 0
    unique_ids := fun _ => ∅
    class_count := fun _ => 0
    confidence_sum := fun _ => 0
    confidence_count := fun _ => 0 }

/-- Body of the per-box loop of `analyze_video` (lines 52-60): a box whose
`id` is `None` is skipped (`continue`); otherwise the track id is added to
`unique_ids[cls_name]`, the confidence to `confidence_sum[cls_name]`, and
`confidence_count[cls_name]` is incremented. -/
def ingestDet (s : AnalyticsState) (d : Detection) : AnalyticsState :=
  match d.id with
  | none => s
  | some t =>
    { s with
      unique_ids := fun c =>
        if c = d.cls then insert t (s.unique_ids c) else s.unique_ids c
      confidence_sum := fun c =>
        if c = d.cls then s.confidence_sum c + d.conf else s.confidence_sum c
      confidence_count := fun c =>
        if c = d.cls then s.confidence_count c + 1 else s.confidence_count c }

/-- One iteration of the `while cap.isOpened()` loop of `analyze_video`
(lines 43-66) after a successful read: if `results[0].boxes.id` is not
`None` every box is ingested, and `analytics["total_frames"]` is
incremented either way. -/
def ingestFrame (s : AnalyticsState) (f : Frame) : AnalyticsState :=
  let s1 := if f.hasIds then f.dets.foldl ingestDet s else s
  { s1 with total_frames := s1.total_frames + 1 }

/-- Running the whole `analyze_video` frame loop from the freshly created
`analytics` dictionary over the decoded frame sequence. -/
def runFrames (frames : List Frame) : AnalyticsState :=
  frames.foldl ingestFrame initState

/-- The finalization step of `analyze_video` (lines 74-75):
`for cls_name, ids in analytics["unique_ids"].items():
class_count[cls_name] = len(ids)`.  A key is present in the
`unique_ids` defaultdict exactly when its set is non-empty (the only
access is `.add`), so the entries not overwritten are those with an
empty set. -/
def finalizeState (s : AnalyticsState) : AnalyticsState :=
  { s with class_count := fun c =>
      if s.unique_ids c = ∅ then s.class_count c else (s.unique_ids c).card }

/-- The effective frame rate of `analyze_video` (line 24):
`fps = int(cap.get(cv2.CAP_PROP_FPS)) or 30` — a source reporting 0 is
replaced by 30. -/
def effectiveFps (rawFps : Nat) : Nat :=
  if rawFps = 0 then 30 else rawFps

/-- The whole of `analyze_video` on an opened source (lines 22-78): run the
frame loop, re-derive `class_count` from `unique_ids`, and return the
analytics together with `duration_sec = analytics["total_frames"] / fps`. -/
def analyze_video (rawFps : Nat) (frames : List Frame) : AnalyticsState × Rat :=
  let a := finalizeState (runFrames frames)
  (a, (a.total_frames : Rat) / (effectiveFps rawFps : Rat))

/-- `analyze_video` including the source-open check (lines 17-20): a source
that cannot be opened (`not cap.isOpened()`) yields `return None, 0` before
the `analytics` dictionary is even created. -/
def analyze_video_session (src : Option (Nat × List Frame)) :
    Option AnalyticsState × Rat :=
  match src with
  | none => (none, 0)
  | some (rawFps, frames) =>
    let r := analyze_video rawFps frames
    (some r.1, r.2)

/-- Body of the per-box loop of `analyze_image` (lines 98-104): no identity
is involved; `class_count[cls_name]` is incremented directly and the
confidence accumulators are updated once per detection. -/
def ingestImageDet (s : AnalyticsState) (d : Detection) : AnalyticsState :=
  { s with
    class_count := fun c =>
      if c = d.cls then s.class_count c + 1 else s.class_count c
    confidence_sum := fun c =>
      if c = d.cls then s.confidence_sum c + d.conf else s.confidence_sum c
    confidence_count := fun c =>
      if c = d.cls then s.confidence_count c + 1 else s.confidence_count c }

/-- `analyze_image` on a decoded image (lines 89-109): ingest every
detection of the single frame and `return analytics, 0`. -/
def analyze_image (dets : List Detection) : AnalyticsState × Rat :=
  (dets.foldl ingestImageDet initState, 0)

/-- `analyze_image` including the decode check (lines 84-86): `cv2.imread`
returning `None` yields `return None, 0`. -/
def analyze_image_session (src : Option (List Detection)) :
    Option AnalyticsState × Rat :=
  match src with
  | none => (none, 0)
  | some dets =>
    let r := analyze_image dets
    (some r.1, r.2)

/-- Average confidence as computed in `create_statistics_section` of
`report_generator.py` (lines 227-230): `avg_conf = 0.0`, overwritten with
`confidence_sum[cls] / confidence_count[cls]` when
`confidence_count[cls] > 0`. -/
def avgConfReport (s : AnalyticsState) (c : String) : Rat :=
  let avg : Rat := 0
  if s.confidence_count c > 0
    then s.confidence_sum c / (s.confidence_count c : Rat)
    else avg

/-- Average confidence as computed in `generate_pdf` of
`generate_ai_summary.py` (lines 71-75): `confidence_sum[cls] /
confidence_count[cls]` if `confidence_count[cls] > 0`, else `0.0`. -/
def avgConfPdf (s : AnalyticsState) (c : String) : Rat :=
  if s.confidence_count c > 0
    then s.confidence_sum c / (s.confidence_count c : Rat)
    else 0

/-- The detections of a frame sequence that the `analyze_video` loop
actually iterates over: all boxes of the frames passing the frame-level
`results[0].boxes.id is not None` guard. -/
def acceptedDets (frames : List Frame) : List Detection :=
  (frames.map fun f => if f.hasIds then f.dets else []).flatten

/-- The identified contributions of a detection list to class `c`: one
`(track id, confidence)` pair per detection carrying class `c` and a
defined track id. -/
def contribs (c : String) (l : List Detection) : List (Int × Rat) :=
  l.filterMap fun d =>
    match d.id with
    | none => none
    | some t => if d.cls = c then some (t, d.conf) else none

/-- Modelled from the spec (§8, claim C1's reading of the property): the
set of distinct track ids ever seen together with class `c` across the
whole input, ignoring detections whose track id is undefined. -/
def specSeenIds (frames : List Frame) (c : String) : Finset Int :=
  (((frames.map Frame.dets).flatten).filterMap fun d =>
    match d.id with
    | none => none
    | some t => if d.cls = c then some t else none).toFinset

/-- A frame sequence is well formed when a frame failing the frame-level
guard (`results[0].boxes.id is None`, meaning the tracker assigned no
identity this frame) contains no box with a defined id. -/
def WellFormed (frames : List Frame) : Prop :=
  ∀ f ∈ frames, f.hasIds = false → ∀ d ∈ f.dets, d.id = none

/-! ### Accumulation lemmas for the per-box loop -/

theorem contribs_nil (c : String) : contribs c [] = [] := rfl

theorem contribs_cons (c : String) (d : Detection) (l : List Detection) :
    contribs c (d :: l) =
      (match d.id with
        | none => contribs c l
        | some t =>
          if d.cls = c then (t, d.conf) :: contribs c l else contribs c l) := by
  cases h : d.id with
  | none => simp [contribs, List.filterMap_cons, h]
  | some t =>
    by_cases hc : d.cls = c <;> simp [contribs, List.filterMap_cons, h, hc]

theorem contribs_append (c : String) (l₁ l₂ : List Detection) :
    contribs c (l₁ ++ l₂) = contribs c l₁ ++ contribs c l₂ :=
  List.filterMap_append l₁ l₂ _

theorem foldl_ingestDet_total_frames (l : List Detection) (s : AnalyticsState) :
    (l.foldl ingestDet s).total_frames = s.total_frames := by
  induction l generalizing s with
  | nil => rfl
  | cons d l ih =>
    rw [List.foldl_cons, ih]
    cases h : d.id <;> simp [ingestDet, h]

theorem foldl_ingestDet_class_count (l : List Detection) (s : AnalyticsState)
    (c : String) : (l.foldl ingestDet s).class_count c = s.class_count c := by
  induction l generalizing s with
  | nil => rfl
  | cons d l ih =>
    rw [List.foldl_cons, ih]
    cases h : d.id <;> simp [ingestDet, h]

theorem foldl_ingestDet_unique_ids (l : List Detection) (s : AnalyticsState)
    (c : String) :
    (l.foldl ingestDet s).unique_ids c =
      s.unique_ids c ∪ ((contribs c l).map Prod.fst).toFinset := by
  induction l generalizing s with
  | nil => simp [contribs_nil]
  | cons d l ih =>
    rw [List.foldl_cons, ih, contribs_cons]
    cases h : d.id with
    | none => simp [ingestDet, h]
    | some t =>
      by_cases hc : d.cls = c
      · subst hc
        simp [ingestDet, h, Finset.insert_union, Finset.union_insert]
      · have hc' : ¬ c = d.cls := fun hh => hc hh.symm
        simp [ingestDet, h, hc, hc']

theorem foldl_ingestDet_confidence_count (l : List Detection)
    (s : AnalyticsState) (c : String) :
    (l.foldl ingestDet s).confidence_count c =
      s.confidence_count c + (contribs c l).length := by
  induction l generalizing s with
  | nil => simp [contribs_nil]
  | cons d l ih =>
    rw [List.foldl_cons, ih, contribs_cons]
    cases h : d.id with
    | none => simp [ingestDet, h]
    | some t =>
      by_cases hc : d.cls = c
      · subst hc
        simp [ingestDet, h]
        omega
      · have hc' : ¬ c = d.cls := fun hh => hc hh.symm
        simp [ingestDet, h, hc, hc']

theorem foldl_ingestDet_confidence_sum (l : List Detection)
    (s : AnalyticsState) (c : String) :
    (l.foldl ingestDet s).confidence_sum c =
      s.confidence_sum c + ((contribs c l).map Prod.snd).sum := by
  induction l generalizing s with
  | nil => simp [contribs_nil]
  | cons d l ih =>
    rw [List.foldl_cons, ih, contribs_cons]
    cases h : d.id with
    | none => simp [ingestDet, h]
    | some t =>
      by_cases hc : d.cls = c
      · subst hc
        simp [ingestDet, h]
        ring
      · have hc' : ¬ c = d.cls := fun hh => hc hh.symm
        simp [ingestDet, h, hc, hc']

/-! ### Accumulation lemmas for the frame loop -/

theorem acceptedDets_nil : acceptedDets [] = [] := rfl

theorem acceptedDets_cons (f : Frame) (frames : List Frame) :
    acceptedDets (f :: frames) =
      (if f.hasIds then f.dets else []) ++ acceptedDets frames := by
  simp [acceptedDets]

theorem foldl_ingestFrame_total_frames (frames : List Frame)
    (s : AnalyticsState) :
    (frames.foldl ingestFrame s).total_frames =
      s.total_frames + frames.length := by
  induction frames generalizing s with
  | nil => simp
  | cons f frames ih =>
    rw [List.foldl_cons, ih]
    cases h : f.hasIds <;>
      simp [ingestFrame, h, foldl_ingestDet_total_frames] <;> omega

theorem foldl_ingestFrame_class_count (frames : List Frame)
    (s : AnalyticsState) (c : String) :
    (frames.foldl ingestFrame s).class_count c = s.class_count c := by
  induction frames generalizing s with
  | nil => rfl
  | cons f frames ih =>
    rw [List.foldl_cons, ih]
    cases h : f.hasIds <;>
      simp [ingestFrame, h, foldl_ingestDet_class_count]

theorem foldl_ingestFrame_unique_ids (frames : List Frame)
    (s : AnalyticsState) (c : String) :
    (frames.foldl ingestFrame s).unique_ids c =
      s.unique_ids c ∪
        ((contribs c (acceptedDets frames)).map Prod.fst).toFinset := by
  induction frames generalizing s with
  | nil => simp [acceptedDets_nil, contribs_nil]
  | cons f frames ih =>
    rw [List.foldl_cons, ih, acceptedDets_cons, contribs_append]
    cases h : f.hasIds with
    | false => simp [ingestFrame, h, contribs_nil]
    | true =>
      simp [ingestFrame, h, foldl_ingestDet_unique_ids, Finset.union_assoc]

theorem foldl_ingestFrame_confidence_count (frames : List Frame)
    (s : AnalyticsState) (c : String) :
    (frames.foldl ingestFrame s).confidence_count c =
      s.confidence_count c + (contribs c (acceptedDets frames)).length := by
  induction frames generalizing s with
  | nil => simp [acceptedDets_nil, contribs_nil]
  | cons f frames ih =>
    rw [List.foldl_cons, ih, acceptedDets_cons, contribs_append]
    cases h : f.hasIds with
    | false => simp [ingestFrame, h, contribs_nil]
    | true =>
      simp [ingestFrame, h, foldl_ingestDet_confidence_count]
      omega

theorem foldl_ingestFrame_confidence_sum (frames : List Frame)
    (s : AnalyticsState) (c : String) :
    (frames.foldl ingestFrame s).confidence_sum c =
      s.confidence_sum c +
        ((contribs c (acceptedDets frames)).map Prod.snd).sum := by
  induction frames generalizing s with
  | nil => simp [acceptedDets_nil, contribs_nil]
  | cons f frames ih =>
    rw [List.foldl_cons, ih, acceptedDets_cons, contribs_append]
    cases h : f.hasIds with
    | false => simp [ingestFrame, h, contribs_nil]
    | true =>
      simp [ingestFrame, h, foldl_ingestDet_confidence_sum]
      ring

/-! ### Derived facts about runFrames and finalizeState -/

theorem runFrames_unique_ids (frames : List Frame) (c : String) :
    (runFrames frames).unique_ids c =
      ((contribs c (acceptedDets frames)).map Prod.fst).toFinset := by
  rw [runFrames, foldl_ingestFrame_unique_ids]
  simp [initState]

theorem runFrames_class_count (frames : List Frame) (c : String) :
    (runFrames frames).class_count c = 0 := by
  rw [runFrames, foldl_ingestFrame_class_count]; rfl

theorem runFrames_confidence_count (frames : List Frame) (c : String) :
    (runFrames frames).confidence_count c =
      (contribs c (acceptedDets frames)).length := by
  rw [runFrames, foldl_ingestFrame_confidence_count]
  simp [initState]

theorem runFrames_confidence_sum (frames : List Frame) (c : String) :
    (runFrames frames).confidence_sum c =
      ((contribs c (acceptedDets frames)).map Prod.snd).sum := by
  rw [runFrames, foldl_ingestFrame_confidence_sum]
  simp [initState]

theorem finalizeState_class_count_card (s : AnalyticsState) (c : String)
    (h0 : s.class_count c = 0) :
    (finalizeState s).class_count c = (s.unique_ids c).card := by
  by_cases h : s.unique_ids c = ∅ <;> simp [finalizeState, h, h0]

theorem analyze_video_class_count (rawFps : Nat) (frames : List Frame)
    (c : String) :
    (analyze_video rawFps frames).1.class_count c =
      ((runFrames frames).unique_ids c).card := by
  exact finalizeState_class_count_card _ _ (runFrames_class_count frames c)

/-! ### Relating the loop's id collection to the spec-level one -/

theorem contribs_map_fst (c : String) (l : List Detection) :
    (contribs c l).map Prod.fst =
      l.filterMap fun d =>
        match d.id with
        | none => none
        | some t => if d.cls = c then some t else none := by
  induction l with
  | nil => rfl
  | cons d l ih =>
    rw [contribs_cons, List.filterMap_cons]
    cases h : d.id with
    | none => exact ih
    | some t =>
      by_cases hc : d.cls = c
      · simp [hc, ih]
      · simp [hc, ih]

theorem specSeenIds_eq_accepted (frames : List Frame) (hwf : WellFormed frames)
    (c : String) :
    specSeenIds frames c =
      ((contribs c (acceptedDets frames)).map Prod.fst).toFinset := by
  rw [contribs_map_fst]
  unfold specSeenIds
  congr 1
  induction frames with
  | nil => rfl
  | cons f fs ih =>
    have hf : f.hasIds = false → ∀ d ∈ f.dets, d.id = none :=
      hwf f (List.mem_cons_self f fs)
    have hfs : WellFormed fs := fun g hg => hwf g (List.mem_cons_of_mem f hg)
    rw [acceptedDets_cons]
    cases h : f.hasIds with
    | true =>
      simp only [List.map_cons, List.flatten_cons, if_pos, List.filterMap_append,
        ih hfs]
    | false =>
      have hnil : (f.dets.filterMap fun d =>
          match d.id with
          | none => none
          | some t => if d.cls = c then some t else none) = [] := by
        rw [List.filterMap_eq_nil_iff]
        intro d hd
        rw [hf h d hd]
      simp only [List.map_cons, List.flatten_cons, if_neg, Bool.false_eq_true,
        not_false_iff, List.filterMap_append, hnil, List.nil_append,
        List.filterMap_nil]
      exact ih hfs

/-! ### Finalization and image-mode lemmas -/

theorem finalizeState_unique_ids (s : AnalyticsState) :
    (finalizeState s).unique_ids = s.unique_ids := rfl

theorem finalizeState_total_frames (s : AnalyticsState) :
    (finalizeState s).total_frames = s.total_frames := rfl

theorem finalizeState_confidence_sum (s : AnalyticsState) :
    (finalizeState s).confidence_sum = s.confidence_sum := rfl

theorem finalizeState_confidence_count (s : AnalyticsState) :
    (finalizeState s).confidence_count = s.confidence_count := rfl

theorem foldl_ingestImageDet_class_count (l : List Detection)
    (s : AnalyticsState) (c : String) :
    (l.foldl ingestImageDet s).class_count c =
      s.class_count c + (l.filter fun d => d.cls == c).length := by
  induction l generalizing s with
  | nil => simp
  | cons d l ih =>
    rw [List.foldl_cons, ih, List.filter_cons]
    by_cases hc : d.cls = c
    · subst hc
      simp [ingestImageDet]
      omega
    · have hc' : ¬ c = d.cls := fun hh => hc hh.symm
      simp [ingestImageDet, hc, hc']

theorem foldl_ingestImageDet_confidence_count (l : List Detection)
    (s : AnalyticsState) (c : String) :
    (l.foldl ingestImageDet s).confidence_count c =
      s.confidence_count c + (l.filter fun d => d.cls == c).length := by
  induction l generalizing s with
  | nil => simp
  | cons d l ih =>
    rw [List.foldl_cons, ih, List.filter_cons]
    by_cases hc : d.cls = c
    · subst hc
      simp [ingestImageDet]
      omega
    · have hc' : ¬ c = d.cls := fun hh => hc hh.symm
      simp [ingestImageDet, hc, hc']

theorem foldl_ingestImageDet_confidence_sum (l : List Detection)
    (s : AnalyticsState) (c : String) :
    (l.foldl ingestImageDet s).confidence_sum c =
      s.confidence_sum c +
        (((l.filter fun d => d.cls == c).map Detection.conf)).sum := by
  induction l generalizing s with
  | nil => simp
  | cons d l ih =>
    rw [List.foldl_cons, ih, List.filter_cons]
    by_cases hc : d.cls = c
    · subst hc
      simp [ingestImageDet]
      ring
    · have hc' : ¬ c = d.cls := fun hh => hc hh.symm
      simp [ingestImageDet, hc, hc']

theorem analyze_video_fst (rawFps : Nat) (frames : List Frame) :
    (analyze_video rawFps frames).1 = finalizeState (runFrames frames) := rfl

theorem analyze_image_fst (dets : List Detection) :
    (analyze_image dets).1 = dets.foldl ingestImageDet initState := rfl

/-- C5: in tracking mode, a detection whose track id is undefined is
ignored entirely: folding the per-box loop over a detection list gives
exactly the same state as folding it over the sublist of detections with a
defined id, so an undefined-id detection contributes nothing to
`unique_ids`, `class_count`, `confidence_sum` or `confidence_count`. -/
theorem undefined_track_id_ignored (s : AnalyticsState) (dets : List Detection) :
    dets.foldl ingestDet s = (dets.filter fun d => d.id.isSome).foldl ingestDet s := by
  induction dets generalizing s with
  | nil => rfl
  | cons d l ih =>
    rw [List.foldl_cons, List.filter_cons]
    cases h : d.id with
    | none =>
      have hd : ingestDet s d = s := by simp [ingestDet, h]
      simp [h, hd, ih]
    | some t =>
      simp only [h, Option.isSome_some, if_pos, List.foldl_cons]
      exact ih (ingestDet s d)

/-- C6: the reported average confidence is `confidence_sum[c] /
confidence_count[c]` when `confidence_count[c] > 0` and exactly `0` when
`confidence_count[c] = 0` (so the guarded derivation never divides by
zero), and the rule computed in `report_generator.py` coincides with the
one computed in `generate_ai_summary.py`. -/
theorem avg_confidence_derivation (s : AnalyticsState) (c : String) :
    avgConfReport s c = avgConfPdf s c ∧
    (s.confidence_count c = 0 → avgConfReport s c = 0) ∧
    (0 < s.confidence_count c →
      avgConfReport s c = s.confidence_sum c / (s.confidence_count c : Rat)) := by
  refine ⟨rfl, fun h => ?_, fun h => ?_⟩
  · simp [avgConfReport, h]
  · simp [avgConfReport, h]

theorem avg_confidence_derivation_witness :
    avgConfReport initState "car" = 0 ∧
    avgConfReport (analyze_image [⟨"car", none, 4/5⟩]).1 "car" = 4/5 := by
  constructor
  · exact (avg_confidence_derivation initState "car").2.1 (by decide)
  · have h := (avg_confidence_derivation (analyze_image [⟨"car", none, 4/5⟩]).1
      "car").2.2 (by decide)
    rw [h]
    simp [analyze_image, ingestImageDet, initState]

/-- C7: finalization is idempotent: applying `finalizeState` twice yields
the very same state as applying it once, hence the same `class_count`, the
same average confidence and the same derived duration. -/
theorem finalize_idempotent (s : AnalyticsState) (c : String) (rawFps : Nat) :
    finalizeState (finalizeState s) = finalizeState s ∧
    avgConfReport (finalizeState (finalizeState s)) c =
      avgConfReport (finalizeState s) c ∧
    ((finalizeState (finalizeState s)).total_frames : Rat) /
        (effectiveFps rawFps : Rat) =
      ((finalizeState s).total_frames : Rat) / (effectiveFps rawFps : Rat) := by
  have h : finalizeState (finalizeState s) = finalizeState s := by
    apply AnalyticsState.ext
    · rfl
    · rfl
    · funext c'
      by_cases he : s.unique_ids c' = ∅ <;> simp [finalizeState, he]
    · rfl
    · rfl
  exact ⟨h, by rw [h], by rw [h]⟩

/-- C8: in single-shot image mode, the resulting `class_count[c]` is the
number of detections of class `c` in the frame, and every detection also
adds its confidence once to `confidence_sum[c]` and increments
`confidence_count[c]` once. -/
theorem image_mode_counts (dets : List Detection) (c : String) :
    (analyze_image dets).1.class_count c =
        (dets.filter fun d => d.cls == c).length ∧
    (analyze_image dets).1.confidence_count c =
        (dets.filter fun d => d.cls == c).length ∧
    (analyze_image dets).1.confidence_sum c =
        ((dets.filter fun d => d.cls == c).map Detection.conf).sum := by
  refine ⟨?_, ?_, ?_⟩
  · rw [analyze_image_fst, foldl_ingestImageDet_class_count]
    simp [initState]
  · rw [analyze_image_fst, foldl_ingestImageDet_confidence_count]
    simp [initState]
  · rw [analyze_image_fst, foldl_ingestImageDet_confidence_sum]
    simp [initState]

/-- C9: a source that cannot be opened or decoded produces the failure
result `(None, 0)` carrying no analytics state at all, while any readable
source (even one with zero frames or zero detections) produces a defined
state — so failure is distinguishable from an empty-but-valid result. -/
theorem unreadable_source_failure (rawFps : Nat) (frames : List Frame)
    (dets : List Detection) :
    (analyze_video_session none).1 = none ∧
    (analyze_video_session none).2 = 0 ∧
    ((analyze_video_session (some (rawFps, frames))).1).isSome = true ∧
    (analyze_image_session none).1 = none ∧
    (analyze_image_session none).2 = 0 ∧
    ((analyze_image_session (some dets)).1).isSome = true :=
  ⟨rfl, rfl, rfl, rfl, rfl, rfl⟩

/-- C10: in every finalized tracking-mode state, `class_count[c]` is at
most `confidence_count[c]`: the set insertion and the confidence-count
increment happen together for every accepted detection, so the number of
distinct ids cannot exceed the number of counted detection instances. -/
theorem class_count_le_confidence_count (rawFps : Nat) (frames : List Frame)
    (c : String) :
    (analyze_video rawFps frames).1.class_count c ≤
      (analyze_video rawFps frames).1.confidence_count c := by
  rw [analyze_video_class_count, runFrames_unique_ids, analyze_video_fst,
    finalizeState_confidence_count, runFrames_confidence_count]
  calc ((contribs c (acceptedDets frames)).map Prod.fst).toFinset.card
      ≤ ((contribs c (acceptedDets frames)).map Prod.fst).length :=
        List.toFinset_card_le _
    _ = (contribs c (acceptedDets frames)).length := List.length_map _ _

/-- C1: after finalization, `class_count[c]` equals the number of distinct
track ids ever seen together with class `c`, ignoring detections whose
track id is undefined (for well-formed inputs, where a frame failing the
frame-level id guard carries no identified boxes). -/
theorem tracking_class_count_eq_distinct_ids (rawFps : Nat)
    (frames : List Frame) (hwf : WellFormed frames) (c : String) :
    (analyze_video rawFps frames).1.class_count c =
      (specSeenIds frames c).card := by
  rw [analyze_video_class_count, runFrames_unique_ids,
    specSeenIds_eq_accepted frames hwf]

theorem tracking_class_count_eq_distinct_ids_witness :
    WellFormed [Frame.mk true [Detection.mk "car" (some 1) 1],
      Frame.mk false [], Frame.mk true [Detection.mk "car" (some 2) 1,
        Detection.mk "car" (some 1) 1]] ∧
    (analyze_video 30 [Frame.mk true [Detection.mk "car" (some 1) 1],
      Frame.mk false [], Frame.mk true [Detection.mk "car" (some 2) 1,
        Detection.mk "car" (some 1) 1]]).1.class_count "car" =
      (specSeenIds [Frame.mk true [Detection.mk "car" (some 1) 1],
        Frame.mk false [], Frame.mk true [Detection.mk "car" (some 2) 1,
          Detection.mk "car" (some 1) 1]] "car").card := by
  constructor
  · unfold WellFormed
    decide
  · exact tracking_class_count_eq_distinct_ids 30 _
      (by unfold WellFormed; decide) "car"

theorem contribs_replicated (c : String) (t : Int) (ps : List Rat) :
    contribs c (acceptedDets (ps.map fun p =>
        Frame.mk true [Detection.mk c (some t) p])) =
      ps.map fun p => (t, p) := by
  induction ps with
  | nil => rfl
  | cons p ps ih =>
    rw [List.map_cons, acceptedDets_cons, contribs_append, ih]
    simp [contribs]

theorem const_map_toFinset (t : Int) (ps : List Rat) (h : ps ≠ []) :
    (ps.map fun _ => t).toFinset = {t} := by
  induction ps with
  | nil => exact absurd rfl h
  | cons p ps ih =>
    cases ps with
    | nil => simp
    | cons q qs =>
      rw [List.map_cons, List.toFinset_cons, ih (by simp)]
      simp

/-- C2: re-seeing the same track id with the same class across N frames
(one detection per frame, any confidences) contributes exactly 1 to the
finalized `class_count[c]`, exactly N to `confidence_count[c]`, and each
frame's confidence once to `confidence_sum[c]`. -/
theorem reseen_track_contributions (rawFps : Nat) (c : String) (t : Int)
    (ps : List Rat) (h : ps ≠ []) :
    (analyze_video rawFps (ps.map fun p =>
        Frame.mk true [Detection.mk c (some t) p])).1.class_count c = 1 ∧
    (analyze_video rawFps (ps.map fun p =>
        Frame.mk true [Detection.mk c (some t) p])).1.confidence_count c =
      ps.length ∧
    (analyze_video rawFps (ps.map fun p =>
        Frame.mk true [Detection.mk c (some t) p])).1.confidence_sum c =
      ps.sum := by
  refine ⟨?_, ?_, ?_⟩
  · rw [analyze_video_class_count, runFrames_unique_ids, contribs_replicated]
    have hm : (ps.map fun p => ((t : Int), p)).map Prod.fst =
        ps.map fun _ => t := by simp
    rw [hm, const_map_toFinset t ps h, Finset.card_singleton]
  · rw [analyze_video_fst, finalizeState_confidence_count,
      runFrames_confidence_count, contribs_replicated, List.length_map]
  · rw [analyze_video_fst, finalizeState_confidence_sum,
      runFrames_confidence_sum, contribs_replicated]
    have hm : (ps.map fun p => ((t : Int), p)).map Prod.snd = ps := by simp
    rw [hm]

theorem reseen_track_contributions_witness :
    (analyze_video 30 ([(9:Rat)/10, 8/10, 7/10].map fun p =>
        Frame.mk true [Detection.mk "Car" (some 1) p])).1.class_count "Car"
          = 1 ∧
    (analyze_video 30 ([(9:Rat)/10, 8/10, 7/10].map fun p =>
        Frame.mk true [Detection.mk "Car" (some 1) p])).1.confidence_count
          "Car" = 3 ∧
    (analyze_video 30 ([(9:Rat)/10, 8/10, 7/10].map fun p =>
        Frame.mk true [Detection.mk "Car" (some 1) p])).1.confidence_sum
          "Car" = 12/5 := by
  have h := reseen_track_contributions 30 "Car" 1 [(9:Rat)/10, 8/10, 7/10]
    (List.cons_ne_nil _ _)
  refine ⟨h.1, ?_, ?_⟩
  · rw [h.2.1]
    rfl
  · rw [h.2.2]
    norm_num

/-- C3: the code violates the claimed invariant that a track id belongs to
at most one class's `unique_ids` set: when the engine's class assignment
for id 1 flips from "car" to "truck" between frames, id 1 ends up in both
sets and is counted once under each class after finalization. -/
theorem track_id_in_two_classes :
    (1:Int) ∈ (runFrames [Frame.mk true [Detection.mk "car" (some 1) 1],
      Frame.mk true [Detection.mk "truck" (some 1) 1]]).unique_ids "car" ∧
    (1:Int) ∈ (runFrames [Frame.mk true [Detection.mk "car" (some 1) 1],
      Frame.mk true [Detection.mk "truck" (some 1) 1]]).unique_ids "truck" ∧
    (analyze_video 30 [Frame.mk true [Detection.mk "car" (some 1) 1],
      Frame.mk true [Detection.mk "truck" (some 1) 1]]).1.class_count "car"
        = 1 ∧
    (analyze_video 30 [Frame.mk true [Detection.mk "car" (some 1) 1],
      Frame.mk true [Detection.mk "truck" (some 1) 1]]).1.class_count "truck"
        = 1 := by
  refine ⟨?_, ?_, ?_, ?_⟩ <;> decide

/-- C4 (counterexample): a 90-frame video whose source reports a frame
rate of 0 gets duration 90 / 30 = 3, not 0 — the code substitutes 30 for a
reported frame rate of 0 instead of defining the duration to be 0. -/
theorem duration_zero_fps_counterexample :
    (analyze_video 0 (List.replicate 90 (Frame.mk true []))).2 = 3 ∧
    ¬ (analyze_video 0 (List.replicate 90 (Frame.mk true []))).2 = 0 := by
  have ht : (analyze_video 0
      (List.replicate 90 (Frame.mk true []))).1.total_frames = 90 := by
    rw [analyze_video_fst, finalizeState_total_frames, runFrames,
      foldl_ingestFrame_total_frames]
    simp [initState]
  have h2 : (analyze_video 0 (List.replicate 90 (Frame.mk true []))).2 =
      ((analyze_video 0
        (List.replicate 90 (Frame.mk true []))).1.total_frames : Rat) /
        ((effectiveFps 0 : Nat) : Rat) := rfl
  rw [h2, ht]
  norm_num [effectiveFps]

/-- C4 (amended): the video duration is `total_frames / frame_rate` when
the source's frame rate is positive; when the source reports a frame rate
of 0 the code substitutes 30 fps, so the duration is `total_frames / 30`;
single-image analysis yields duration exactly 0. -/
theorem duration_rule (rawFps : Nat) (frames : List Frame)
    (dets : List Detection) :
    (0 < rawFps → (analyze_video rawFps frames).2 =
      ((analyze_video rawFps frames).1.total_frames : Rat) / (rawFps : Rat)) ∧
    (rawFps = 0 → (analyze_video rawFps frames).2 =
      ((analyze_video rawFps frames).1.total_frames : Rat) / 30) ∧
    (analyze_image dets).2 = 0 := by
  refine ⟨fun h => ?_, fun h => ?_, rfl⟩
  · have hne : rawFps ≠ 0 := Nat.pos_iff_ne_zero.mp h
    simp [analyze_video, effectiveFps, hne]
  · simp [analyze_video, effectiveFps, h]

theorem duration_rule_witness :
    (analyze_video 30 (List.replicate 90 (Frame.mk true []))).2 = 3 ∧
    (analyze_video 0 (List.replicate 60 (Frame.mk true []))).2 = 2 := by
  have ht : ∀ n : Nat, ∀ fps : Nat, (analyze_video fps
      (List.replicate n (Frame.mk true []))).1.total_frames = n := by
    intro n fps
    rw [analyze_video_fst, finalizeState_total_frames, runFrames,
      foldl_ingestFrame_total_frames]
    simp [initState]
  constructor
  · have h := (duration_rule 30 (List.replicate 90 (Frame.mk true [])) []).1
      (by norm_num)
    rw [h, ht]
    norm_num
  · have h := (duration_rule 0
      (List.replicate 60 (Frame.mk true [])) []).2.1 rfl
    rw [h, ht]
    norm_num
